import Mathlib

/-!
Verification development for the ai-doc-reviewer repository.

The repository is a GitHub action (TypeScript, `src/main.ts` plus historical
variants of the same engine) that turns LLM review output into anchored pull
request comments.  This file gives a shallow embedding of the core pure logic:

* a model of the JavaScript runtime pieces the code leans on
  (`JSON.parse`, `RegExp` search, string `trim`/`includes`/`replace`,
  `Number` conversion, truthiness),
* the response-extraction tiers of `getDeepseekResponse` (two variants),
* the line resolution helpers `getChangeLineNumber` (two variants) and the
  line-content lookup loop of `createComment`,
* the suggestion synthesis `extractSuggestion` and both comment assemblers
  `createComment`,
* `findCommonPrefix`,
* the provider fallback policy of `getAIResponse` and the configuration
  check of `main`.

Text is modelled as `List Char`; machine strings of the source are mapped via
`lc`.  Network and GitHub collaborators are parameters (per the spec they are
external collaborators); everything else is translated from the source.
-/

/-- The characters of a string literal, the text representation used
throughout this development. -/
def lc (s : String) : List Char := s.data

/-- The single quote character. -/
def squote : Char := Char.ofNat 39

/-- The double quote character. -/
def dquote : Char := Char.ofNat 34

/-- The backtick character. -/
def btick : Char := Char.ofNat 96

/-- The opening curly brace character. -/
def lbrace : Char := Char.ofNat 123

/-- The closing curly brace character. -/
def rbrace : Char := Char.ofNat 125

/-- Whitespace in the JavaScript sense (the subset relevant here: the
characters matched by regex `\s` and trimmed by `String.prototype.trim`
that occur in the modelled data). -/
def isJsWs (c : Char) : Bool :=
  c == ' ' || c == '\t' || c == '\n' || c == '\r' ||
  c == Char.ofNat 11 || c == Char.ofNat 12

/-- Model of `String.prototype.trim`: drop whitespace from both ends. -/
def jsTrim (cs : List Char) : List Char :=
  ((cs.dropWhile isJsWs).reverse.dropWhile isJsWs).reverse

/-- Boolean prefix test on character lists. -/
def isPrefixOfB : List Char → List Char → Bool
  | [], _ => true
  | _ :: _, [] => false
  | a :: as, b :: bs => a == b && isPrefixOfB as bs

/-- Model of `String.prototype.indexOf`: index of the first occurrence of
`needle`, if any. -/
def idxOfSub (needle : List Char) : List Char → Option Nat
  | [] => if needle.isEmpty then some 0 else none
  | c :: rest =>
    if isPrefixOfB needle (c :: rest) then some 0
    else (idxOfSub needle rest).map (fun i => i + 1)

/-- Model of `String.prototype.includes`. -/
def includesSub (needle hay : List Char) : Bool :=
  (idxOfSub needle hay).isSome

/-- Model of `String.prototype.replace` with a plain-string pattern:
replace the first occurrence only. -/
def replaceFirst (hay old new : List Char) : List Char :=
  match idxOfSub old hay with
  | none => hay
  | some i => hay.take i ++ new ++ hay.drop (i + old.length)

/-- Decimal digits to a natural number. -/
def digitsToNat (ds : List Char) : Nat :=
  ds.foldl (fun acc c => acc * 10 + (c.toNat - 48)) 0

/-- Model of the `Number(string)` conversions the source applies to
`lineNumber` fields: the empty (or all-whitespace) string gives `0`, a
decimal integer gives its value, anything else gives `NaN` (modelled as
`none`; `NaN` compares unequal to every number). -/
def jsNumber (s : List Char) : Option Int :=
  let t := jsTrim s
  if t.isEmpty then some 0
  else
    match t with
    | '-' :: ds =>
      if !ds.isEmpty && ds.all Char.isDigit then some (-(digitsToNat ds : Int)) else none
    | ds =>
      if ds.all Char.isDigit then some ((digitsToNat ds : Nat) : Int) else none

/-!
## A small backtracking regex engine

The source uses a handful of JavaScript regular expressions.  They are
embedded as terms of the following abstract syntax and executed by a
backtracking matcher whose alternative ordering mirrors the JavaScript
engine: a greedy quantifier prefers the longer match, a lazy one the
shorter, `X?` prefers presence, and the overall search returns the
leftmost match.
-/

/-- Regex abstract syntax (only the constructs the source regexes use). -/
inductive RE where
  | eps : RE
  | cls : (Char → Bool) → RE
  | cat : RE → RE → RE
  | alt : RE → RE → RE
  | opt : Bool → RE → RE
  | star : Bool → RE → RE
  | group : Nat → RE → RE

/-- Literal character (case sensitive). -/
def RE.chr (c : Char) : RE := RE.cls (fun d => d == c)

/-- Literal string (case sensitive). -/
def RE.lit : List Char → RE
  | [] => RE.eps
  | c :: cs => RE.cat (RE.chr c) (RE.lit cs)

/-- Literal character under the `i` flag (case insensitive). -/
def RE.ichr (c : Char) : RE := RE.cls (fun d => d.toLower == c.toLower)

/-- Literal string under the `i` flag. -/
def RE.ilit : List Char → RE
  | [] => RE.eps
  | c :: cs => RE.cat (RE.ichr c) (RE.ilit cs)

/-- One-or-more repetition (`+`, greedy when the flag is `true`). -/
def rePlus (greedy : Bool) (r : RE) : RE := RE.cat r (RE.star greedy r)

/-- The backtracking matcher, in continuation-passing style.  `gs` carries
the captured groups recorded so far; `k` receives the rest of the input and
the groups when the pattern has been consumed.  `fuel` bounds the depth of
the search (it is always given enough, see `fuelFor`). -/
def munch : Nat → RE → List Char → List (Nat × List Char) →
    (List Char → List (Nat × List Char) → Option (List Char × List (Nat × List Char))) →
    Option (List Char × List (Nat × List Char))
  | 0, _, _, _, _ => none
  | Nat.succ fuel, re, cs, gs, k =>
    match re with
    | RE.eps => k cs gs
    | RE.cls p =>
      match cs with
      | [] => none
      | c :: rest => if p c then k rest gs else none
    | RE.cat a b => munch fuel a cs gs (fun cs2 gs2 => munch fuel b cs2 gs2 k)
    | RE.alt a b =>
      match munch fuel a cs gs k with
      | some r => some r
      | none => munch fuel b cs gs k
    | RE.opt greedy a =>
      if greedy then
        match munch fuel a cs gs k with
        | some r => some r
        | none => k cs gs
      else
        match k cs gs with
        | some r => some r
        | none => munch fuel a cs gs k
    | RE.star greedy a =>
      let again := fun cs2 gs2 =>
        if cs2.length < cs.length then munch fuel (RE.star greedy a) cs2 gs2 k else none
      if greedy then
        match munch fuel a cs gs again with
        | some r => some r
        | none => k cs gs
      else
        match k cs gs with
        | some r => some r
        | none => munch fuel a cs gs again
    | RE.group n a =>
      munch fuel a cs gs (fun cs2 gs2 =>
        k cs2 ((n, cs.take (cs.length - cs2.length)) :: gs2))

/-- Enough fuel for any search this development performs. -/
def fuelFor (cs : List Char) : Nat := 200 * (cs.length + 20)

/-- Try to match `re` at the start of `cs`; on success return the length of
the match and the captured groups. -/
def reTry (re : RE) (cs : List Char) : Option (Nat × List (Nat × List Char)) :=
  match munch (fuelFor cs) re cs [] (fun rest gs => some (rest, gs)) with
  | some (rest, gs) => some (cs.length - rest.length, gs)
  | none => none

/-- Leftmost search: try each start position from the left; return the
start index, the match length and the groups of the first success.  This is
the behaviour of `String.prototype.match` without the `g` flag. -/
def reSearchAux (re : RE) : List Char → Nat → Option (Nat × Nat × List (Nat × List Char))
  | [], i =>
    match reTry re [] with
    | some (len, gs) => some (i, len, gs)
    | none => none
  | c :: rest, i =>
    match reTry re (c :: rest) with
    | some (len, gs) => some (i, len, gs)
    | none => reSearchAux re rest (i + 1)

/-- Look up a captured group by number. -/
def grp (gs : List (Nat × List Char)) (n : Nat) : Option (List Char) :=
  (gs.find? (fun p => p.1 == n)).map (fun p => p.2)

/-- All matches (the behaviour of `String.prototype.match` with the `g`
flag): full match texts, scanning left to right, resuming after each
match. -/
def reAllAux (re : RE) : Nat → List Char → List (List Char)
  | 0, _ => []
  | Nat.succ fuel, cs =>
    match reSearchAux re cs 0 with
    | none => []
    | some (i, len, _) =>
      let m := (cs.drop i).take len
      if len == 0 then m :: reAllAux re fuel (cs.drop (i + 1))
      else m :: reAllAux re fuel (cs.drop (i + len))

/-- All matches of `re` in `cs`. -/
def reAll (re : RE) (cs : List Char) : List (List Char) :=
  reAllAux re (cs.length + 1) cs

/-!
## A model of `JSON.parse`

A fuel-based recursive-descent parser for the JSON fragment the modelled
inputs use: objects, arrays, strings with the simple escapes, integer
numbers, `true`, `false`, `null`.  (Fractions, exponents and `\u` escapes
do not occur in any input considered here.)  Surrounding whitespace is
skipped; trailing garbage makes the parse fail, as `JSON.parse` throws.
-/

/-- JSON values.  Numbers are restricted to integers (sufficient for every
input this development evaluates). -/
inductive Json where
  | null : Json
  | bool : Bool → Json
  | num : Int → Json
  | str : List Char → Json
  | arr : List Json → Json
  | obj : List (List Char × Json) → Json

/-- Parse a JSON string body after the opening quote; returns the decoded
characters and the rest of the input after the closing quote. -/
def parseStrBody : Nat → List Char → Option (List Char × List Char)
  | 0, _ => none
  | Nat.succ fuel, cs =>
    match cs with
    | [] => none
    | c :: rest =>
      if c == dquote then some ([], rest)
      else if c == '\\' then
        match rest with
        | [] => none
        | e :: rest2 =>
          let dec : Option Char :=
            if e == dquote then some dquote
            else if e == '\\' then some '\\'
            else if e == '/' then some '/'
            else if e == 'n' then some '\n'
            else if e == 't' then some '\t'
            else if e == 'r' then some '\r'
            else if e == 'b' then some (Char.ofNat 8)
            else if e == 'f' then some (Char.ofNat 12)
            else none
          match dec with
          | none => none
          | some d => (parseStrBody fuel rest2).map (fun p => (d :: p.1, p.2))
      else (parseStrBody fuel rest).map (fun p => (c :: p.1, p.2))

/-- Parse a JSON integer number. -/
def parseNum (cs : List Char) : Option (Json × List Char) :=
  match cs with
  | '-' :: rest =>
    let ds := rest.takeWhile Char.isDigit
    if ds.isEmpty then none
    else some (Json.num (-(digitsToNat ds : Int)), rest.drop ds.length)
  | _ =>
    let ds := cs.takeWhile Char.isDigit
    if ds.isEmpty then none
    else some (Json.num ((digitsToNat ds : Nat) : Int), cs.drop ds.length)

mutual

/-- Parse one JSON value (leading whitespace allowed). -/
def parseVal : Nat → List Char → Option (Json × List Char)
  | 0, _ => none
  | Nat.succ fuel, cs0 =>
    let cs := cs0.dropWhile isJsWs
    match cs with
    | [] => none
    | c :: rest =>
      if c == lbrace then
        match rest.dropWhile isJsWs with
        | d :: rest2 => if d == rbrace then some (Json.obj [], rest2) else parseMembers fuel [] cs
        | [] => none
      else if c == '[' then
        match rest.dropWhile isJsWs with
        | d :: rest2 => if d == ']' then some (Json.arr [], rest2) else parseItems fuel [] cs
        | [] => none
      else if c == dquote then
        (parseStrBody (Nat.succ fuel) rest).map (fun p => (Json.str p.1, p.2))
      else if isPrefixOfB (lc "true") cs then some (Json.bool true, cs.drop 4)
      else if isPrefixOfB (lc "false") cs then some (Json.bool false, cs.drop 5)
      else if isPrefixOfB (lc "null") cs then some (Json.null, cs.drop 4)
      else parseNum cs

/-- Parse the members of a nonempty object; `cs` points at the opening
brace (first call) or just after a comma (later calls, with `acc` holding
the members so far). -/
def parseMembers : Nat → List (List Char × Json) → List Char → Option (Json × List Char)
  | 0, _, _ => none
  | Nat.succ fuel, acc, cs =>
    match cs with
    | [] => none
    | _ :: rest =>
      match rest.dropWhile isJsWs with
      | [] => none
      | q :: rest2 =>
        if q == dquote then
          match parseStrBody (Nat.succ fuel) rest2 with
          | none => none
          | some (key, rest3) =>
            match rest3.dropWhile isJsWs with
            | [] => none
            | colon :: rest4 =>
              if colon == ':' then
                match parseVal fuel rest4 with
                | none => none
                | some (v, rest5) =>
                  match rest5.dropWhile isJsWs with
                  | [] => none
                  | sep :: rest6 =>
                    if sep == ',' then
                      parseMembers fuel (acc ++ [(key, v)]) (sep :: rest6)
                    else if sep == rbrace then some (Json.obj (acc ++ [(key, v)]), rest6)
                    else none
              else none
        else none

/-- Parse the items of a nonempty array; `cs` points at the opening
bracket (first call) or just after a comma (later calls). -/
def parseItems : Nat → List Json → List Char → Option (Json × List Char)
  | 0, _, _ => none
  | Nat.succ fuel, acc, cs =>
    match cs with
    | [] => none
    | _ :: rest =>
      match parseVal fuel rest with
      | none => none
      | some (v, rest2) =>
        match rest2.dropWhile isJsWs with
        | [] => none
        | sep :: rest3 =>
          if sep == ',' then parseItems fuel (acc ++ [v]) (sep :: rest3)
          else if sep == ']' then some (Json.arr (acc ++ [v]), rest3)
          else none

end

/-- Model of `JSON.parse`: `none` stands for a thrown `SyntaxError`. -/
def jsonParse (cs : List Char) : Option Json :=
  match parseVal (2 * cs.length + 10) cs with
  | some (v, rest) => if (rest.dropWhile isJsWs).isEmpty then some v else none
  | none => none

/-- Model of JavaScript property access `j[k]`: `none` stands for
`undefined` (only objects carry members, matching `JSON.parse` output;
with duplicate keys the last wins, as in JavaScript). -/
def Json.getField : Json → List Char → Option Json
  | Json.obj kvs, k => (kvs.reverse.find? (fun p => p.1 == k)).map (fun p => p.2)
  | _, _ => none

/-- JavaScript truthiness of a JSON value. -/
def jsTruthy : Json → Bool
  | Json.null => false
  | Json.bool b => b
  | Json.num n => decide (n ≠ 0)
  | Json.str s => !s.isEmpty
  | Json.arr _ => true
  | Json.obj _ => true

/-- Truthiness of a possibly-`undefined` value. -/
def jsTruthyOpt : Option Json → Bool
  | none => false
  | some j => jsTruthy j

/-- The `reviews` key. -/
def reviewsKey : List Char := lc "reviews"

/-!
## Response extraction (`getDeepseekResponse`)

Two variants of the extraction pipeline exist in the repository.

* `extractA` embeds `src/main.ts` lines 275 to 306: first the whole text is
  parsed as JSON and its `reviews` member returned when truthy; otherwise
  the first fenced code block is tried the same way; otherwise the result
  is `null` (modelled as `none`).
* `extractC` embeds `src/main.ts` lines 1366 to 1414: the content is
  trimmed, then the first fenced code block is tried (an object found
  there but lacking `reviews` already returns the empty array), then the
  whole text, then the first brace-delimited substring, and finally the
  empty array.
-/

/-- A whitespace character class (regex `\s`). -/
def wsCls : RE := RE.cls isJsWs

/-- The class matching any character (regex `[\s\S]`). -/
def anyCls : RE := RE.cls (fun _ => true)

/-- Three backticks. -/
def ticks3 : RE := RE.lit [btick, btick, btick]

/-- The fenced-code-block regex of the source,
three backticks, `(?:json)?`, `\s*`, a lazily matched brace-delimited
group, `\s*`, three backticks. -/
def fencedRE : RE :=
  RE.cat ticks3 (RE.cat (RE.opt true (RE.lit (lc "json")))
    (RE.cat (RE.star true wsCls)
      (RE.cat (RE.group 1 (RE.cat (RE.chr lbrace) (RE.cat (RE.star false anyCls) (RE.chr rbrace))))
        (RE.cat (RE.star true wsCls) ticks3))))

/-- The brace-substring regex of the source: a lazily matched
brace-delimited span. -/
def braceRE : RE :=
  RE.cat (RE.chr lbrace) (RE.cat (RE.star false anyCls) (RE.chr rbrace))

/-- Group 1 of the first fenced-code-block match, if any. -/
def fencedMatch (cs : List Char) : Option (List Char) :=
  match reSearchAux fencedRE cs 0 with
  | some (_, _, gs) => grp gs 1
  | none => none

/-- The first brace-delimited substring match, if any. -/
def braceMatch (cs : List Char) : Option (List Char) :=
  match reSearchAux braceRE cs 0 with
  | some (i, len, _) => some ((cs.drop i).take len)
  | none => none

/-- Extraction variant of `src/main.ts` lines 275 to 306: whole-text parse
first (returning the `reviews` member when the parse succeeds and the
member is truthy), then the first fenced code block, then `null`. -/
def extractA (content : List Char) : Option Json :=
  let tier2 : Option Json :=
    match fencedMatch content with
    | some g =>
      match jsonParse g with
      | some j =>
        if jsTruthy j && jsTruthyOpt (j.getField reviewsKey) then j.getField reviewsKey
        else none
      | none => none
    | none => none
  match jsonParse content with
  | some j =>
    if jsTruthy j && jsTruthyOpt (j.getField reviewsKey) then j.getField reviewsKey
    else tier2
  | none => tier2

/-- Extraction variant of `src/main.ts` lines 1366 to 1414: the content is
trimmed, the fenced code block is tried first (a parsed block without a
truthy `reviews` member returns the empty array), then the whole text (a
parsed `null` makes the member access throw, caught and sent to the next
tier; any other parsed value without truthy `reviews` returns the empty
array), then the first brace-delimited substring, then the empty array. -/
def extractC (raw : List Char) : Option Json :=
  let content := jsTrim raw
  let tier3 : Option Json :=
    match braceMatch content with
    | none => some (Json.arr [])
    | some m =>
      match jsonParse m with
      | none => some (Json.arr [])
      | some j =>
        if jsTruthyOpt (j.getField reviewsKey) then j.getField reviewsKey
        else some (Json.arr [])
  let tier2 : Option Json :=
    match jsonParse content with
    | none => tier3
    | some Json.null => tier3
    | some j =>
      if jsTruthyOpt (j.getField reviewsKey) then j.getField reviewsKey
      else some (Json.arr [])
  match fencedMatch content with
  | none => tier2
  | some g =>
    match jsonParse g with
    | none => tier2
    | some j =>
      if jsTruthyOpt (j.getField reviewsKey) then j.getField reviewsKey
      else some (Json.arr [])

/-!
## The diff model and line resolution

`Change` embeds the three record shapes of the `parse-diff` library used by
the source: `add` and `del` changes carry `ln`, `normal` changes carry
`ln1` (old) and `ln2` (new), and every change carries its raw text.
-/

/-- A change record of a diff chunk. -/
inductive Change where
  | add : Nat → List Char → Change
  | del : Nat → List Char → Change
  | normal : Nat → Nat → List Char → Change
deriving DecidableEq

/-- The raw text of a change. -/
def Change.content : Change → List Char
  | Change.add _ s => s
  | Change.del _ s => s
  | Change.normal _ _ s => s

/-- The `getChangeLineNumber` helper of `src/main.ts` lines 346 to 355:
dispatch on `change.type`, comparing `ln` for `add` and `del` and `ln2`
for `normal` against the target (the target is `none` when the
`Number` conversion gave `NaN`, which compares unequal to everything). -/
def getChangeLineNumberTy (c : Change) (t : Option Int) : Bool :=
  match c with
  | Change.add ln _ => t == some (ln : Int)
  | Change.normal _ ln2 _ => t == some (ln2 : Int)
  | Change.del ln _ => t == some (ln : Int)

/-- The `getChangeLineNumber` helper of `src/main.ts` lines 1526 to 1534:
probe with the `in` operator, comparing `ln` when the field exists (`add`
and `del` records) and `ln2` when that field exists (`normal` records). -/
def getChangeLineNumberIn (c : Change) (t : Option Int) : Bool :=
  match c with
  | Change.add ln _ => t == some (ln : Int)
  | Change.del ln _ => t == some (ln : Int)
  | Change.normal _ ln2 _ => t == some (ln2 : Int)

/-- The line-content lookup loop of `createComment` (`src/main.ts` lines
1438 to 1446): the content of the first change accepted by
`getChangeLineNumber`, or the empty string. -/
def findLineContent (changes : List Change) (t : Option Int) : List Char :=
  match changes with
  | [] => []
  | c :: rest => if getChangeLineNumberIn c t then c.content else findLineContent rest t

/-- Modelled from the spec: the preferred applicable line number of the
LineResolver contract in section 4.3, `lineNumber` for added and deleted
changes, `newLineNumber` for context changes. -/
def specPreferredMatch (c : Change) (t : Option Int) : Bool :=
  match c with
  | Change.add ln _ => t == some (ln : Int)
  | Change.del ln _ => t == some (ln : Int)
  | Change.normal _ ln2 _ => t == some (ln2 : Int)

/-- Modelled from the spec: the fallback of section 4.3, the
`oldLineNumber` of a context change. -/
def specFallbackMatch (c : Change) (t : Option Int) : Bool :=
  match c with
  | Change.normal ln1 _ _ => t == some (ln1 : Int)
  | _ => false

/-- Modelled from the spec: the LineResolver of section 4.3, matching on
preferred line numbers first and falling back to the `oldLineNumber` of
context changes only when no change matched, returning the matched
content or not-found. -/
def specResolveLine (changes : List Change) (t : Option Int) : Option (List Char) :=
  match changes.find? (fun c => specPreferredMatch c t) with
  | some c => some c.content
  | none => (changes.find? (fun c => specFallbackMatch c t)).map Change.content

/-- The applicable line number of a change in the sense of the spec:
`ln` for added and deleted changes, `ln2` for context changes. -/
def applicableLineNumber : Change → Nat
  | Change.add ln _ => ln
  | Change.del ln _ => ln
  | Change.normal _ ln2 _ => ln2

/-!
## Suggestion synthesis (`extractSuggestion` of `src/main.ts` lines 1453 to 1500)

The six comment patterns are embedded as regex terms, in source order,
each with the group numbers the source reads as the old and the new text.
-/

/-- Is the character a single or double quote. -/
def isQuoteCh (c : Char) : Bool := c == squote || c == dquote

/-- The optional quote of the source patterns. -/
def optQuote : RE := RE.opt true (RE.cls isQuoteCh)

/-- A capture group of one or more non-quote characters. -/
def grpNQ (n : Nat) : RE := RE.group n (rePlus true (RE.cls (fun c => !isQuoteCh c)))

/-- Source pattern 1, the form of two spans joined by the words should be,
case insensitive; old text is group 1, new text group 2. -/
def reShouldBe : RE :=
  RE.cat optQuote (RE.cat (grpNQ 1) (RE.cat optQuote
    (RE.cat (RE.ilit (lc " should be "))
      (RE.cat optQuote (RE.cat (grpNQ 2) optQuote)))))

/-- Source pattern 2, the form change A to B; old is group 1, new group 2. -/
def reChangeTo : RE :=
  RE.cat (RE.ilit (lc "change ")) (RE.cat optQuote (RE.cat (grpNQ 1)
    (RE.cat optQuote (RE.cat (RE.ilit (lc " to "))
      (RE.cat optQuote (RE.cat (grpNQ 2) optQuote))))))

/-- Source pattern 3, the form A instead of B; old is group 2, new group 1. -/
def reInsteadOf : RE :=
  RE.cat optQuote (RE.cat (grpNQ 1) (RE.cat optQuote
    (RE.cat (RE.ilit (lc " instead of "))
      (RE.cat optQuote (RE.cat (grpNQ 2) optQuote)))))

/-- Source pattern 4, the Chinese 应为 form; old is group 1, new group 2. -/
def reYingWei : RE :=
  RE.cat optQuote (RE.cat (grpNQ 1) (RE.cat optQuote
    (RE.cat (RE.ilit (lc " 应为 "))
      (RE.cat optQuote (RE.cat (grpNQ 2) optQuote)))))

/-- Source pattern 5, the Chinese 改为 form; old is group 1, new group 2. -/
def reGaiWei : RE :=
  RE.cat optQuote (RE.cat (grpNQ 1) (RE.cat optQuote
    (RE.cat (RE.ilit (lc " 改为 "))
      (RE.cat optQuote (RE.cat (grpNQ 2) optQuote)))))

/-- Source pattern 6, the Chinese 将…改为 form; old is group 1, new group 2. -/
def reJiangGaiWei : RE :=
  RE.cat (RE.ilit (lc "将 ")) (RE.cat optQuote (RE.cat (grpNQ 1)
    (RE.cat optQuote (RE.cat (RE.ilit (lc " 改为 "))
      (RE.cat optQuote (RE.cat (grpNQ 2) optQuote))))))

/-- The ordered pattern table of the source, each with its old and new
group numbers. -/
def patternsC : List (RE × Nat × Nat) :=
  [(reShouldBe, 1, 2), (reChangeTo, 1, 2), (reInsteadOf, 2, 1),
   (reYingWei, 1, 2), (reGaiWei, 1, 2), (reJiangGaiWei, 1, 2)]

/-- The pattern loop of `extractSuggestion`: first pattern whose match has
both groups nonempty and whose trimmed old text occurs in the line wins,
yielding the line with the first occurrence of the old text replaced. -/
def tryPatterns : List (RE × Nat × Nat) → List Char → List Char → Option (List Char)
  | [], _, _ => none
  | (re, og, ng) :: rest, lineContent, comment =>
    let attempt : Option (List Char) :=
      match reSearchAux re comment 0 with
      | none => none
      | some (_, _, gs) =>
        match grp gs og, grp gs ng with
        | some o, some n =>
          if !o.isEmpty && !n.isEmpty then
            let oldText := jsTrim o
            let newText := jsTrim n
            if includesSub oldText lineContent then
              some (replaceFirst lineContent oldText newText)
            else none
          else none
        | _, _ => none
    match attempt with
    | some r => some r
    | none => tryPatterns rest lineContent comment

/-- The quoted-span regex of the source, a quote, one or more non-quote
characters, a quote (searched with the `g` flag). -/
def quotedRE : RE :=
  RE.cat (RE.cls isQuoteCh) (RE.cat (RE.group 1 (rePlus true (RE.cls (fun c => !isQuoteCh c)))) (RE.cls isQuoteCh))

/-- The quote stripping of the source (replace a leading and a trailing
quote character by nothing). -/
def stripQuotes (s : List Char) : List Char :=
  let s1 :=
    match s with
    | [] => []
    | c :: rest => if isQuoteCh c then rest else s
  match s1.reverse with
  | [] => s1
  | c :: rest => if isQuoteCh c then rest.reverse else s1

/-- The quoted-text fallback of `extractSuggestion`: one quoted span that
differs from the trimmed line is a whole-line replacement; two quoted
spans are an old and a new text. -/
def quotedFallback (lineContent comment : List Char) : Option (List Char) :=
  match reAll quotedRE comment with
  | [m] =>
    let suggestion := jsTrim (stripQuotes m)
    if suggestion.isEmpty then none
    else if suggestion == jsTrim lineContent then none
    else some suggestion
  | [m0, m1] =>
    let oldText := jsTrim (stripQuotes m0)
    let newText := jsTrim (stripQuotes m1)
    if includesSub oldText lineContent then
      some (replaceFirst lineContent oldText newText)
    else none
  | _ => none

/-- The `extractSuggestion` closure of `createComment` (`src/main.ts`
lines 1453 to 1500): the pattern table first, then the quoted-span
fallback, else nothing. -/
def extractSuggestion (lineContent comment : List Char) : Option (List Char) :=
  match tryPatterns patternsC lineContent comment with
  | some r => some r
  | none => quotedFallback lineContent comment

/-!
## Comment assembly
-/

/-- A review item recovered from provider text.  The source keeps all
fields as strings; the heuristic variant of `createComment` reads only the
line number and the comment, the explicit-suggestion variant also reads
the suggestion. -/
structure ReviewItem where
  lineNumber : List Char
  reviewComment : List Char
  suggestion : List Char
deriving DecidableEq

/-- A posted review comment, the terminal artifact. -/
structure ReviewComment where
  body : List Char
  path : List Char
  line : Option Int
deriving DecidableEq

/-- The heuristic `createComment` of `src/main.ts` lines 1421 to 1514:
per item, resolve the line content through the chunk, synthesize a
suggestion from the comment prose when the line resolved, and emit the
comment (with the synthesized suggestion trimmed into a three-backtick
block when one was found); a file without a target path yields nothing. -/
def createCommentC (fileTo : Option (List Char)) (changes : List Change)
    (items : List ReviewItem) : List ReviewComment :=
  (items.map (fun r =>
    match fileTo with
    | none => []
    | some p =>
      if p.isEmpty then []
      else
        let t := jsNumber r.lineNumber
        let lineContent := findLineContent changes t
        let body :=
          if lineContent ≠ [] ∧ 0 < (jsTrim lineContent).length then
            match extractSuggestion lineContent r.reviewComment with
            | some s =>
              if s.isEmpty then r.reviewComment
              else r.reviewComment ++ lc "\n\n```suggestion\n" ++ jsTrim s ++ lc "\n```"
            | none => r.reviewComment
          else r.reviewComment
        [⟨body, p, t⟩])).flatten

/-- The explicit-suggestion `createComment` of `src/main.ts` lines 309 to
328: per item, the body is the review comment followed unconditionally by
the suggestion field wrapped in a four-backtick fence; a file without a
target path yields nothing. -/
def createCommentA (fileTo : Option (List Char)) (items : List ReviewItem) : List ReviewComment :=
  (items.map (fun r =>
    match fileTo with
    | none => []
    | some p =>
      if p.isEmpty then []
      else
        [⟨r.reviewComment ++ lc "\n\n````suggestion\n" ++ r.suggestion ++ lc "\n````",
          p, jsNumber r.lineNumber⟩])).flatten

/-- The `findCommonPrefix` helper of `src/main.ts` lines 1517 to 1523:
walk both strings while the characters agree. -/
def findCommonPrefix : List Char → List Char → List Char
  | a :: as, b :: bs => if a = b then a :: findCommonPrefix as bs else []
  | _, _ => []

/-!
## The fence rule of the spec (for comparison with the assembler)
-/

/-- Longest run of consecutive backticks, by a linear scan. -/
def tickRunAux : List Char → Nat → Nat → Nat
  | [], cur, best => max cur best
  | c :: rest, cur, best =>
    if c == btick then tickRunAux rest (cur + 1) best
    else tickRunAux rest 0 (max cur best)

/-- Longest run of consecutive backticks in a text. -/
def longestTickRun (cs : List Char) : Nat := tickRunAux cs 0 0

/-- Modelled from the spec: the fence length rule of section 4.6, one more
backtick than the longest run found anywhere in the comment text or
suggestion text, with a floor of three. -/
def specFenceLen (comment suggestion : List Char) : Nat :=
  max 3 (max (longestTickRun comment) (longestTickRun suggestion) + 1)

/-- Modelled from the spec: the body assembly of section 4.6, the comment
followed by the suggestion wrapped in a fence of `specFenceLen`
backticks. -/
def specAssembleBody (comment suggestion : List Char) : List Char :=
  comment ++ lc "\n\n" ++ List.replicate (specFenceLen comment suggestion) btick
    ++ lc "suggestion\n" ++ suggestion ++ lc "\n"
    ++ List.replicate (specFenceLen comment suggestion) btick

/-!
## Provider gateway and pipeline (`getAIResponse`, `analyzeCode`, `main`)

The network transports are collaborators (spec section 1), passed as
oracle functions from prompt text to an outcome: a thrown error, a
response without content, or the raw content text.  Everything after the
transport is translated from the source: the key guards, the client
initialization condition, the extraction, the fallback policy, and the
configuration check of `main`.  The trace of transport calls each run
performs is returned alongside the result.
-/

/-- The configuration read at module load: the provider selector and the
two credentials. -/
structure RunConfig where
  apiProvider : String
  openaiKey : String
  deepseekKey : String
deriving DecidableEq

/-- Outcome of one transport call: a thrown error (rejected fetch,
non-2xx response, API error), a response with no content, or content. -/
inductive NetResult where
  | threw : NetResult
  | ok : Option (List Char) → NetResult

/-- One transport call, with the prompt it carried. -/
inductive CallEv where
  | deepseek : String → CallEv
  | openai : String → CallEv
deriving DecidableEq

/-- Result of `getDeepseekResponse`: a propagated throw, or a value
(`none` standing for `null`). -/
inductive DSRes where
  | threw : DSRes
  | val : Option Json → DSRes

/-- `getDeepseekResponse` of `src/main.ts` lines 214 to 307: with no key
configured the result is `null` without any call; otherwise one transport
call is made, a throw propagates (this variant has no surrounding try),
missing content gives `null`, and content goes through the tiered
extraction `extractA`. -/
def getDeepseekResponseM (cfg : RunConfig) (dsNet : String → NetResult)
    (prompt : String) : DSRes × List CallEv :=
  if cfg.deepseekKey = "" then (DSRes.val none, [])
  else
    match dsNet prompt with
    | NetResult.threw => (DSRes.threw, [CallEv.deepseek prompt])
    | NetResult.ok none => (DSRes.val none, [CallEv.deepseek prompt])
    | NetResult.ok (some content) => (DSRes.val (extractA content), [CallEv.deepseek prompt])

/-- `getOpenAIResponse` of `src/main.ts` lines 172 to 212: the module
initializes the OpenAI client only when `API_PROVIDER` is `openai`, so
with any other provider the function returns `null` at once without a
transport call.  Otherwise one call is made; a throw is caught to `null`;
the content (or the empty object when absent or blank) is parsed and the
`reviews` member returned, `null` and `undefined` collapsing to `none`. -/
def getOpenAIResponseM (cfg : RunConfig) (oaNet : String → NetResult)
    (prompt : String) : Option Json × List CallEv :=
  if cfg.apiProvider ≠ "openai" then (none, [])
  else
    match oaNet prompt with
    | NetResult.threw => (none, [CallEv.openai prompt])
    | NetResult.ok none => (none, [CallEv.openai prompt])
    | NetResult.ok (some content) =>
      let res := if (jsTrim content).isEmpty then lc "\x7b\x7d" else jsTrim content
      let r : Option Json :=
        match jsonParse res with
        | none => none
        | some j =>
          match j.getField reviewsKey with
          | none => none
          | some Json.null => none
          | some v => some v
      (r, [CallEv.openai prompt])

/-- `getAIResponse` of `src/main.ts` lines 137 to 170: with provider
`openai` the OpenAI path is taken directly; with provider `deepseek` the
Deepseek call is tried, and on `null` or a thrown error the OpenAI path is
tried once when an OpenAI key is configured, else the result is `null`;
any other provider yields `null`. -/
def getAIResponseM (cfg : RunConfig) (dsNet oaNet : String → NetResult)
    (prompt : String) : Option Json × List CallEv :=
  if cfg.apiProvider = "openai" then getOpenAIResponseM cfg oaNet prompt
  else if cfg.apiProvider = "deepseek" then
    match getDeepseekResponseM cfg dsNet prompt with
    | (DSRes.val (some r), calls) => (some r, calls)
    | (DSRes.val none, calls) =>
      if cfg.openaiKey = "" then (none, calls)
      else
        let fb := getOpenAIResponseM cfg oaNet prompt
        (fb.1, calls ++ fb.2)
    | (DSRes.threw, calls) =>
      if cfg.openaiKey = "" then (none, calls)
      else
        let fb := getOpenAIResponseM cfg oaNet prompt
        (fb.1, calls ++ fb.2)
  else (none, [])

/-- A diff chunk as `analyzeCode` consumes it. -/
structure DiffChunkM where
  changes : List Change
deriving DecidableEq

/-- A diff file: the target path (`none` for a missing `to` field) and the
chunks. -/
structure DiffFileM where
  toPath : Option (List Char)
  chunks : List DiffChunkM
deriving DecidableEq

/-- Duck-typed reading of one `reviews` array element, modelling the
property accesses the assembler callback performs on it: a `null` element
throws a TypeError (`none` from `JSON.parse` never occurs inside a parsed
value, so `null` is the throwing case); on any other value the accesses
yield the string field as is, the digits of a numeric field, and the
`undefined` stringification for a missing field or a non-object
element. -/
def itemOfJson : Json → Except Unit ReviewItem
  | Json.null => Except.error ()
  | x =>
    let fld := fun (k : List Char) =>
      match x.getField k with
      | some (Json.str s) => s
      | some (Json.num n) => lc (toString n)
      | _ => lc "undefined"
    Except.ok ⟨fld (lc "lineNumber"), fld (lc "reviewComment"), fld (lc "suggestion")⟩

/-- The explicit-suggestion `createComment` applied to the raw `reviews`
value, as `analyzeCode` calls it (`src/main.ts` lines 309 to 328): a
truthy non-array value has no `map` method and throws a TypeError; on an
array, each callback run first returns the empty result when the file has
no truthy target path (before touching the element), and otherwise reads
the element's fields, throwing on a `null` element; the decoded items are
assembled exactly as `createCommentA` does. -/
def createCommentARaw (fileTo : Option (List Char)) (reviews : Json) :
    Except Unit (List ReviewComment) :=
  match reviews with
  | Json.arr xs =>
    match fileTo with
    | none => Except.ok []
    | some p =>
      if p.isEmpty then Except.ok []
      else
        (xs.foldr (fun x acc =>
          match itemOfJson x, acc with
          | Except.error e, _ => Except.error e
          | _, Except.error e => Except.error e
          | Except.ok item, Except.ok rest => Except.ok (item :: rest)) (Except.ok []))
          |>.map (fun items => createCommentA (some p) items)
  | _ => Except.error ()

/-- `analyzeCode` of `src/main.ts` lines 66 to 86: walk files (skipping
the deleted-file sentinel), walk chunks, call the provider gateway on the
prompt the excluded templating collaborator builds (`promptOf`), and on a
truthy response append the comments the assembler produces.  A TypeError
thrown by the assembler propagates (there is no catch inside
`analyzeCode`), abandoning the remaining chunks and files.  The transport
call trace is accumulated alongside. -/
def analyzeCodeE (cfg : RunConfig) (dsNet oaNet : String → NetResult)
    (promptOf : DiffFileM → DiffChunkM → String)
    (files : List DiffFileM) : Except Unit (List ReviewComment) × List CallEv :=
  files.foldl (fun acc file =>
    match acc.1 with
    | Except.error _ => acc
    | Except.ok _ =>
      if file.toPath = some (lc "/dev/null") then acc
      else
        file.chunks.foldl (fun acc2 chunk =>
          match acc2.1 with
          | Except.error _ => acc2
          | Except.ok cs =>
            let r := getAIResponseM cfg dsNet oaNet (promptOf file chunk)
            match r.1 with
            | some j =>
              if jsTruthy j then
                match createCommentARaw file.toPath j with
                | Except.error e => (Except.error e, acc2.2 ++ r.2)
                | Except.ok newCs => (Except.ok (cs ++ newCs), acc2.2 ++ r.2)
              else (Except.ok cs, acc2.2 ++ r.2)
            | none => (Except.ok cs, acc2.2 ++ r.2)) acc) (Except.ok [], [])

/-- Outcome of a run of the modelled pipeline: the configuration failure
of the startup guard, a crash (an error thrown in the analysis stage
reaching the catch of `main`, which reports failure and exits nonzero),
or completion. -/
inductive RunOutcome where
  | configFailed : RunOutcome
  | crashed : RunOutcome
  | completed : List ReviewComment → RunOutcome
deriving DecidableEq

/-- The configuration guard of `main` (`src/main.ts` lines 360 to 368):
the selected provider has no credential. -/
def badConfig (cfg : RunConfig) : Bool :=
  (cfg.apiProvider = "openai" && cfg.openaiKey = "") ||
  (cfg.apiProvider = "deepseek" && cfg.deepseekKey = "")

/-- The core pipeline of `main` (`src/main.ts` lines 357 to 443): the
configuration is validated first and a failure ends the run before
anything else happens; otherwise the analysis stage runs, and an error it
throws reaches the catch of `main`, which marks the run failed and exits
(`crashed`).  The GitHub-side collaborator calls (event payload, PR
metadata, diff download, comment posting) are outside the modelled core
per spec section 1; the returned trace lists the provider transport
calls. -/
def mainCoreM (cfg : RunConfig) (dsNet oaNet : String → NetResult)
    (promptOf : DiffFileM → DiffChunkM → String)
    (files : List DiffFileM) : RunOutcome × List CallEv :=
  if cfg.apiProvider = "openai" && cfg.openaiKey = "" then (RunOutcome.configFailed, [])
  else if cfg.apiProvider = "deepseek" && cfg.deepseekKey = "" then (RunOutcome.configFailed, [])
  else
    let r := analyzeCodeE cfg dsNet oaNet promptOf files
    match r.1 with
    | Except.error _ => (RunOutcome.crashed, r.2)
    | Except.ok cs => (RunOutcome.completed cs, r.2)

/-!
## Concrete inputs used by the counterexamples and witnesses
-/

/-- A text that is one JSON object carrying a fenced code block inside a
string member and a nonempty `reviews` array at top level. -/
def contentC4 : List Char := lc "\x7b\"a\":\"``` \x7b\x7d ```\",\"reviews\":[\"ok\"]\x7d"

/-- The empty JSON object text. -/
def emptyObjText : List Char := lc "\x7b\x7d"

/-- A chunk with a single context change, old line 7, new line 9. -/
def chunkCtx79 : List Change := [Change.normal 7 9 (lc " ctx")]

/-- A review item reporting line 8 with prose only. -/
def itemLine8 : ReviewItem := ⟨lc "8", lc "note", lc ""⟩

/-- The chunk of the worked synthesis example: one added line 5 with an
indented list item. -/
def chunkC3 : List Change := [Change.add 5 (lc "  - old phrase here")]

/-- The review item of the worked synthesis example. -/
def itemC3 : ReviewItem := ⟨lc "5", lc "old phrase should be new phrase", lc ""⟩

/-- A review item with a one-character suggestion and no backticks. -/
def itemC2 : ReviewItem := ⟨lc "1", lc "hi", lc "x"⟩

/-- A deepseek configuration with an OpenAI key present. -/
def cfgC6 : RunConfig := ⟨"deepseek", "sk-test", "ds-key"⟩

/-- A transport oracle that always throws. -/
def netThrow : String → NetResult := fun _ => NetResult.threw

/-- A transport oracle that always answers with a well-formed reviews
payload. -/
def netGood : String → NetResult :=
  fun _ => NetResult.ok (some (lc "\x7b\"reviews\":[\"ok\"]\x7d"))

/-- A transport oracle answering a reviews array whose only element is
`null`. -/
def netNullReview : String → NetResult :=
  fun _ => NetResult.ok (some (lc "\x7b\"reviews\":[null]\x7d"))

/-- A well-formed configuration selecting deepseek, with no OpenAI key. -/
def cfgDs : RunConfig := ⟨"deepseek", "", "ds-key"⟩

/-- A diff with one file and one chunk. -/
def filesOne : List DiffFileM := [⟨some (lc "doc.md"), [⟨[]⟩]⟩]

/-!
## Claim C1
-/

/-- Claim C1, counterexample.  The claim states that a review item whose
line number matches no change of the chunk produces no review comment at
all.  Here no change of the chunk resolves line 8, yet `createComment`
still emits one comment, carrying the prose body at line 8. -/
theorem claim_C1_counterexample :
    (∀ c ∈ chunkCtx79, getChangeLineNumberIn c (jsNumber itemLine8.lineNumber) = false)
    ∧ createCommentC (some (lc "f.md")) chunkCtx79 [itemLine8]
        = [⟨lc "note", lc "f.md", some 8⟩] :=
  ⟨by decide, rfl⟩

/-- Claim C1, amended.  A review item always yields exactly one review
comment when the file has a nonempty target path; when its line number
resolves to no change of the chunk, only the suggestion synthesis is
skipped, and the emitted comment is the prose alone at the reported
line. -/
theorem claim_C1_theorem (p : List Char) (changes : List Change) (r : ReviewItem)
    (hp : p.isEmpty = false)
    (h : findLineContent changes (jsNumber r.lineNumber) = []) :
    createCommentC (some p) changes [r] = [⟨r.reviewComment, p, jsNumber r.lineNumber⟩] := by
  simp [createCommentC, hp, h]

/-- Claim C1, witness: the amended theorem applied at the concrete
unresolvable item. -/
theorem claim_C1_witness :
    (lc "f.md").isEmpty = false
    ∧ findLineContent chunkCtx79 (jsNumber itemLine8.lineNumber) = []
    ∧ createCommentC (some (lc "f.md")) chunkCtx79 [itemLine8]
        = [⟨itemLine8.reviewComment, lc "f.md", jsNumber itemLine8.lineNumber⟩] :=
  ⟨rfl, rfl, claim_C1_theorem _ _ _ rfl rfl⟩

/-!
## Claim C2
-/

/-- Claim C2, counterexample.  The claim states the fence around a
suggestion uses exactly `max 3 (L+1)` backticks for `L` the longest
backtick run in the comment or suggestion text.  For a comment and
suggestion without any backtick the rule demands three backticks, but the
assembler emits its constant four-backtick fence. -/
theorem claim_C2_counterexample :
    (createCommentA (some (lc "f.md")) [itemC2]).map (fun c => c.body)
      = [lc "hi\n\n````suggestion\nx\n````"]
    ∧ specAssembleBody itemC2.reviewComment itemC2.suggestion = lc "hi\n\n```suggestion\nx\n```"
    ∧ lc "hi\n\n````suggestion\nx\n````" ≠ lc "hi\n\n```suggestion\nx\n```" :=
  ⟨rfl, rfl, by decide⟩

/-- Claim C2, amended.  The assembler computes no fence length at all: the
body of every emitted comment wraps the suggestion in a fence of exactly
four backticks, whatever backtick runs the comment or suggestion
contain (so a run of four or more backticks inside the body can still
terminate the fence early). -/
theorem claim_C2_theorem (p : List Char) (hp : p.isEmpty = false) (rs : List ReviewItem) :
    (createCommentA (some p) rs).map (fun c => c.body)
      = rs.map (fun r =>
          r.reviewComment ++ lc "\n\n" ++ List.replicate 4 btick ++ lc "suggestion\n"
            ++ r.suggestion ++ lc "\n" ++ List.replicate 4 btick) := by
  induction rs with
  | nil => simp [createCommentA]
  | cons r rs ih =>
    simp [createCommentA, hp] at ih ⊢
    rw [ih]
    refine ⟨?_, rfl⟩
    rw [show lc "\n\n````suggestion\n" = lc "\n\n" ++ btick :: btick :: btick :: btick :: lc "suggestion\n" from rfl,
        show lc "\n````" = lc "\n" ++ [btick, btick, btick, btick] from rfl]
    simp

/-- Claim C2, witness: the amended theorem applied at a concrete item. -/
theorem claim_C2_witness :
    (lc "f.md").isEmpty = false
    ∧ (createCommentA (some (lc "f.md")) [itemC2]).map (fun c => c.body)
        = [itemC2.reviewComment ++ lc "\n\n" ++ List.replicate 4 btick ++ lc "suggestion\n"
            ++ itemC2.suggestion ++ lc "\n" ++ List.replicate 4 btick] :=
  ⟨rfl, claim_C2_theorem (lc "f.md") rfl [itemC2]⟩

/-!
## Claim C3
-/

/-- Claim C3, counterexample.  The claim states the resolved line's
leading whitespace is reattached before emission, and that for source
line with two leading spaces and the comment of the worked example the
emitted suggestion keeps the two spaces.  Synthesis does produce the
indented candidate, but the assembler trims it, so the emitted block
holds the candidate without its leading whitespace and the claimed
emitted text occurs nowhere in the body. -/
theorem claim_C3_counterexample :
    extractSuggestion (lc "  - old phrase here") (lc "old phrase should be new phrase")
      = some (lc "  - new phrase here")
    ∧ createCommentC (some (lc "doc.md")) chunkC3 [itemC3]
      = [⟨lc "old phrase should be new phrase\n\n```suggestion\n- new phrase here\n```",
          lc "doc.md", some 5⟩]
    ∧ includesSub (lc "  - new phrase here")
        (lc "old phrase should be new phrase\n\n```suggestion\n- new phrase here\n```") = false :=
  ⟨rfl, rfl, rfl⟩

/-- Claim C3, amended.  Whenever synthesis yields a nonempty candidate for
a resolved line, the emitted body appends the candidate trimmed (its
leading whitespace removed, not reattached) inside the three-backtick
suggestion block; for the worked example this makes the emitted
suggestion the unindented candidate. -/
theorem claim_C3_theorem (p : List Char) (changes : List Change) (r : ReviewItem) (s : List Char)
    (hp : p.isEmpty = false)
    (h0 : findLineContent changes (jsNumber r.lineNumber) ≠ [])
    (h1 : 0 < (jsTrim (findLineContent changes (jsNumber r.lineNumber))).length)
    (h2 : extractSuggestion (findLineContent changes (jsNumber r.lineNumber)) r.reviewComment = some s)
    (h3 : s.isEmpty = false) :
    createCommentC (some p) changes [r]
      = [⟨r.reviewComment ++ lc "\n\n```suggestion\n" ++ jsTrim s ++ lc "\n```",
          p, jsNumber r.lineNumber⟩] := by
  simp [createCommentC, hp, h0, h1, h2, h3]
  intro hs
  subst hs
  simp at h3

/-- Claim C3, witness: the amended theorem applied at the worked
example. -/
theorem claim_C3_witness :
    (lc "doc.md").isEmpty = false
    ∧ findLineContent chunkC3 (jsNumber itemC3.lineNumber) ≠ []
    ∧ 0 < (jsTrim (findLineContent chunkC3 (jsNumber itemC3.lineNumber))).length
    ∧ extractSuggestion (findLineContent chunkC3 (jsNumber itemC3.lineNumber)) itemC3.reviewComment
        = some (lc "  - new phrase here")
    ∧ (lc "  - new phrase here").isEmpty = false
    ∧ createCommentC (some (lc "doc.md")) chunkC3 [itemC3]
        = [⟨itemC3.reviewComment ++ lc "\n\n```suggestion\n" ++ jsTrim (lc "  - new phrase here") ++ lc "\n```",
            lc "doc.md", jsNumber itemC3.lineNumber⟩] :=
  ⟨rfl, by decide, by decide, rfl, rfl,
    claim_C3_theorem (lc "doc.md") chunkC3 itemC3 (lc "  - new phrase here")
      rfl (by decide) (by decide) rfl rfl⟩

/-!
## Claim C4
-/

/-- Claim C4, counterexample.  The claim states extraction consults the
whole-text parse first, so whenever the whole text parses as JSON with a
`reviews` array that array is the result.  In the extractor at
`src/main.ts` lines 1368 to 1414 the fenced-block search runs first: this
input parses whole as an object whose `reviews` member is a one-element
array, yet the embedded fenced block decides the result, the empty
array. -/
theorem claim_C4_counterexample :
    jsonParse contentC4
      = some (Json.obj [(lc "a", Json.str (lc "``` \x7b\x7d ```")),
                        (lc "reviews", Json.arr [Json.str (lc "ok")])])
    ∧ Json.getField (Json.obj [(lc "a", Json.str (lc "``` \x7b\x7d ```")),
                        (lc "reviews", Json.arr [Json.str (lc "ok")])]) reviewsKey
        = some (Json.arr [Json.str (lc "ok")])
    ∧ extractC contentC4 = some (Json.arr [])
    ∧ Json.arr [] ≠ Json.arr [Json.str (lc "ok")] :=
  ⟨rfl, rfl, rfl, by simp⟩

/-- Claim C4, amended.  Only the extractor at `src/main.ts` lines 275 to
306 is whole-text-first: whenever the whole text parses as JSON with a
`reviews` array, its result is that array, no other tier being consulted
(that extractor also has no brace-substring tier and fails with `null`
instead); the extractor at lines 1368 to 1414 consults the fenced block
before the whole text. -/
theorem claim_C4_theorem (s : List Char) (j : Json) (l : List Json)
    (h1 : jsonParse s = some j)
    (h2 : Json.getField j reviewsKey = some (Json.arr l)) :
    extractA s = some (Json.arr l) := by
  obtain ⟨kvs, rfl⟩ : ∃ kvs, j = Json.obj kvs := by
    cases j <;> first | exact ⟨_, rfl⟩ | simp [Json.getField] at h2
  simp [extractA, h1, h2, jsTruthy, jsTruthyOpt]

/-- Claim C4, witness: the amended theorem applied at a plain reviews
payload. -/
theorem claim_C4_witness :
    jsonParse (lc "\x7b\"reviews\":[\"ok\"]\x7d")
      = some (Json.obj [(lc "reviews", Json.arr [Json.str (lc "ok")])])
    ∧ Json.getField (Json.obj [(lc "reviews", Json.arr [Json.str (lc "ok")])]) reviewsKey
        = some (Json.arr [Json.str (lc "ok")])
    ∧ extractA (lc "\x7b\"reviews\":[\"ok\"]\x7d") = some (Json.arr [Json.str (lc "ok")]) :=
  ⟨rfl, rfl, claim_C4_theorem _ _ _ rfl rfl⟩

/-!
## Claim C5
-/

/-- Claim C5, counterexample.  The claim states every text that parses as
a JSON object without a `reviews` key is a tier success with the empty
array.  In the extractor at `src/main.ts` lines 275 to 306 the empty
object text parses successfully, yet extraction falls through to the
fenced-block search and, no block matching, reports the `null` hard
failure. -/
theorem claim_C5_counterexample :
    jsonParse emptyObjText = some (Json.obj [])
    ∧ Json.getField (Json.obj []) reviewsKey = none
    ∧ extractA emptyObjText = none :=
  ⟨rfl, rfl, rfl⟩

/-- Claim C5, amended.  Only the extractor at `src/main.ts` lines 1368 to
1414 behaves as claimed: a trimmed text without a fenced-block match that
parses as a JSON object lacking a `reviews` key yields the empty array as
a tier success; the extractor at lines 275 to 306 instead falls through
and can end in the `null` failure. -/
theorem claim_C5_theorem (raw : List Char) (kvs : List (List Char × Json))
    (h1 : fencedMatch (jsTrim raw) = none)
    (h2 : jsonParse (jsTrim raw) = some (Json.obj kvs))
    (h3 : Json.getField (Json.obj kvs) reviewsKey = none) :
    extractC raw = some (Json.arr []) := by
  simp [extractC, h1, h2, h3, jsTruthyOpt]

/-- Claim C5, witness: the amended theorem applied at the empty object
text. -/
theorem claim_C5_witness :
    fencedMatch (jsTrim emptyObjText) = none
    ∧ jsonParse (jsTrim emptyObjText) = some (Json.obj [])
    ∧ Json.getField (Json.obj []) reviewsKey = none
    ∧ extractC emptyObjText = some (Json.arr []) :=
  ⟨rfl, rfl, rfl, claim_C5_theorem emptyObjText [] rfl rfl rfl⟩

/-!
## Claim C6
-/

/-- Claim C6.  The claim states that on a failing primary call with a
secondary credential configured, one fallback call is made with the same
prompt and the secondary's result is final.  The code contradicts its own
fallback messages: the OpenAI client is constructed only when the
provider is `openai`, so on the deepseek path the fallback returns `null`
immediately, makes no OpenAI transport call, and discards what the
secondary would have answered.  First conjunct: with the deepseek
transport throwing and an OpenAI key configured, the run performs only
the one deepseek call and ends in `null`, although the OpenAI transport
would have answered a well-formed reviews payload.  Second conjunct: the
very same transport answer, behind an initialized client, yields the
reviews array. -/
theorem claim_C6_theorem :
    getAIResponseM cfgC6 netThrow netGood "p" = (none, [CallEv.deepseek "p"])
    ∧ getOpenAIResponseM ⟨"openai", "sk-test", ""⟩ netGood "p"
        = (some (Json.arr [Json.str (lc "ok")]), [CallEv.openai "p"]) :=
  ⟨rfl, rfl⟩

/-!
## Claim C7
-/

/-- Claim C7, counterexample.  The claim states a context change is
matched through `newLineNumber` preferentially with a fallback to
`oldLineNumber` when nothing matched.  For a chunk holding one context
change with old line 7 and new line 9, target 7 matches nothing by the
preferred numbers, the claimed fallback would return the change's
content, but the code's resolver returns the not-found empty result. -/
theorem claim_C7_counterexample :
    (∀ c ∈ chunkCtx79, specPreferredMatch c (some 7) = false)
    ∧ specResolveLine chunkCtx79 (some 7) = some (lc " ctx")
    ∧ findLineContent chunkCtx79 (some 7) = []
    ∧ lc " ctx" ≠ [] :=
  ⟨by decide, rfl, rfl, by decide⟩

/-- Claim C7, amended.  Both `getChangeLineNumber` helpers agree and match
a change exactly when the target equals its applicable line number,
`lineNumber` for added and deleted changes and `newLineNumber` for
context changes; there is no `oldLineNumber` fallback; the lookup returns
the first matching change's verbatim content, or the empty not-found
result. -/
theorem claim_C7_theorem :
    (∀ (c : Change) (t : Option Int), getChangeLineNumberTy c t = getChangeLineNumberIn c t)
    ∧ (∀ (c : Change) (t : Option Int),
        getChangeLineNumberIn c t = (t == some ((applicableLineNumber c : Nat) : Int)))
    ∧ (∀ (changes : List Change) (t : Option Int),
        findLineContent changes t
          = ((changes.find? (fun c => getChangeLineNumberIn c t)).map Change.content).getD []) := by
  refine ⟨?_, ?_, ?_⟩
  · intro c t; cases c <;> rfl
  · intro c t; cases c <;> rfl
  · intro changes t
    induction changes with
    | nil => rfl
    | cons c rest ih =>
      cases hb : getChangeLineNumberIn c t <;>
        simp [findLineContent, List.find?, hb, ih]

/-!
## Claim C8
-/

/-- Claim C8, counterexample.  The claim states the configuration error
is the only error class that halts the run.  Under a well-formed deepseek
configuration, a provider answer of a reviews array holding one `null`
element passes extraction (the array is truthy), and the assembler
callback's member access on the `null` element throws a TypeError that
propagates through `analyzeCode` to the catch of `main`, which marks the
run failed and exits: a halt that is not the configuration failure. -/
theorem claim_C8_counterexample :
    badConfig cfgDs = false
    ∧ mainCoreM cfgDs netNullReview netGood (fun _ _ => "p") filesOne
        = (RunOutcome.crashed, [CallEv.deepseek "p"])
    ∧ RunOutcome.crashed ≠ RunOutcome.configFailed :=
  ⟨rfl, rfl, by decide⟩

/-- Claim C8, amended.  The credential check for the selected provider is
the first step of the pipeline: a run ends in the configuration failure
exactly when the selected provider has no credential, and then with an
empty transport trace, so at startup, before any chunk is processed and
before any provider call.  It is not the only error class that halts the
run: a TypeError thrown in comment assembly (a truthy non-array `reviews`
value, or a `null` element in the array) also propagates to the catch of
`main` and halts the run, as the counterexample shows.  (The GitHub-side
collaborator calls are outside the modelled core per spec section 1.) -/
theorem claim_C8_theorem (cfg : RunConfig) (dsNet oaNet : String → NetResult)
    (promptOf : DiffFileM → DiffChunkM → String) (files : List DiffFileM) :
    (badConfig cfg = true → mainCoreM cfg dsNet oaNet promptOf files = (RunOutcome.configFailed, []))
    ∧ ((mainCoreM cfg dsNet oaNet promptOf files).1 = RunOutcome.configFailed ↔ badConfig cfg = true) := by
  by_cases h1 : cfg.apiProvider = "openai" ∧ cfg.openaiKey = ""
  · simp [mainCoreM, badConfig, h1.1, h1.2]
  · by_cases h2 : cfg.apiProvider = "deepseek" ∧ cfg.deepseekKey = ""
    · simp [mainCoreM, badConfig, h2.1, h2.2]
    · simp [mainCoreM, badConfig, h1, h2]
      cases hE : (analyzeCodeE cfg dsNet oaNet promptOf files).1 <;> simp [hE]

/-- Claim C8, witness: the amended theorem applied at a configuration
selecting `openai` with no OpenAI key. -/
theorem claim_C8_witness :
    mainCoreM ⟨"openai", "", "x"⟩ netThrow netGood (fun _ _ => "p") []
      = (RunOutcome.configFailed, []) :=
  ( claim_C8_theorem ⟨"openai", "", "x"⟩ netThrow netGood (fun _ _ => "p") []).1 rfl

/-!
## Claim C9
-/

/-- Claim C9.  `findCommonPrefix` returns the longest common prefix: its
result is a prefix of both inputs, and it either equals one of them or
the characters of the two inputs just past it differ. -/
theorem claim_C9_theorem (s1 s2 : List Char) :
    ( findCommonPrefix s1 s2) <+: s1 ∧ ( findCommonPrefix s1 s2) <+: s2
    ∧ (( findCommonPrefix s1 s2) = s1 ∨ ( findCommonPrefix s1 s2) = s2
       ∨ (s1.drop ( findCommonPrefix s1 s2).length).head?
           ≠ (s2.drop ( findCommonPrefix s1 s2).length).head?) := by
  induction s1 generalizing s2 with
  | nil =>
    exact ⟨List.nil_prefix, by simp [findCommonPrefix], Or.inl rfl⟩
  | cons a as ih =>
    cases s2 with
    | nil =>
      refine ⟨?_, ?_, Or.inr (Or.inl ?_)⟩ <;> simp [findCommonPrefix]
    | cons b bs =>
      by_cases hab : a = b
      · subst hab
        simp only [findCommonPrefix, if_pos rfl]
        obtain ⟨ih1, ih2, ih3⟩ := ih bs
        refine ⟨?_, ?_, ?_⟩
        · exact (List.cons_prefix_cons).2 ⟨rfl, ih1⟩
        · exact (List.cons_prefix_cons).2 ⟨rfl, ih2⟩
        · rcases ih3 with h | h | h
          · exact Or.inl (by simp [h])
          · exact Or.inr (Or.inl (by simp [h]))
          · exact Or.inr (Or.inr (by simpa using h))
      · simp only [findCommonPrefix, if_neg hab]
        refine ⟨List.nil_prefix, List.nil_prefix, Or.inr (Or.inr ?_)⟩
        simpa using hab

/-!
## Claim C10
-/

/-- Claim C10.  In the explicit-suggestion assembler, every item on a file
with a nonempty target path yields a comment whose body appends the
item's suggestion field verbatim inside the four-backtick suggestion
block, with no guard on an absent or empty suggestion: an empty
suggestion still produces the block around an empty line. -/
theorem claim_C10_theorem (p : List Char) (hp : p.isEmpty = false) (rs : List ReviewItem) :
    createCommentA (some p) rs = rs.map (fun r =>
      ⟨r.reviewComment ++ lc "\n\n````suggestion\n" ++ r.suggestion ++ lc "\n````",
        p, jsNumber r.lineNumber⟩) := by
  induction rs with
  | nil => simp [createCommentA]
  | cons r rs ih => simpa [createCommentA, hp] using ih

/-- Claim C10, witness: the theorem applied at an item with the empty
suggestion. -/
theorem claim_C10_witness :
    (lc "d.md").isEmpty = false
    ∧ createCommentA (some (lc "d.md")) [⟨lc "2", lc "c", lc ""⟩]
        = [⟨lc "c" ++ lc "\n\n````suggestion\n" ++ lc "" ++ lc "\n````", lc "d.md", jsNumber (lc "2")⟩] :=
  ⟨rfl, claim_C10_theorem (lc "d.md") rfl [⟨lc "2", lc "c", lc ""⟩]⟩
